import Mathlib

/-!
Verification development for the nutrition-lookup backend (`app.py` and
`static/diet_consult.py`).  The numeric parts of the pipeline are embedded
over `ℚ` (exact arithmetic standing in for Python floats), Python dicts are
embedded as insertion-ordered association lists, and the defensive JSON
extraction is embedded with an executable fuelled JSON parser standing in
for `json.loads`.
-/

namespace NutriSpec

/-! ## Python-dict model: insertion-ordered association lists -/

/-- The running nutrient totals: a Python dict `str -> float` in insertion
order, embedded as an association list over `ℚ`. -/
abbrev Totals := List (String × ℚ)

/-- Python `str.lower()` (the source lower-cases via `unit.lower()`,
`full_name.lower()`, `gender.lower()`): char-wise lower-casing. -/
def strLower (s : String) : String := String.mk (s.toList.map Char.toLower)

/-- Python `str.strip()`: drop leading and trailing whitespace. -/
def pyStrip (s : String) : String :=
  String.mk
    (((s.toList.dropWhile Char.isWhitespace).reverse.dropWhile
      Char.isWhitespace).reverse)

/-- Python `d.get(k, 0.0)`: the value stored at the first (unique) occurrence
of the key, defaulting to `0`. -/
def dictGet : Totals → String → ℚ
  | [], _ => 0
  | e :: rest, k => if e.1 = k then e.2 else dictGet rest k

/-- Python `d[k] = v`: replace the value in place when the key is present,
otherwise append the new key at the end (insertion order). -/
def dictSet : Totals → String → ℚ → Totals
  | [], k, v => [(k, v)]
  | e :: rest, k, v => if e.1 = k then (k, v) :: rest else e :: dictSet rest k v

/-- The key list of a dict, in insertion order. -/
def keysOf (t : Totals) : List String := t.map Prod.fst

/-! ## Rounding: Python's `round(x, 2)` (banker's rounding, to 2 decimals) -/

/-- The floor of a rational, written so that it evaluates by kernel
reduction (`den` is positive, so flooring division of `num` by `den`). -/
def ratFloor (q : ℚ) : ℤ := Int.fdiv q.num q.den

/-- Round a rational to the nearest integer, ties to the even integer
(Python's `round` semantics). -/
def roundHalfEven (q : ℚ) : ℤ :=
  let f : ℤ := ratFloor q
  let frac : ℚ := q - f
  if frac < 1/2 then f
  else if 1/2 < frac then f + 1
  else if f % 2 = 0 then f else f + 1

/-- Python `round(q, 2)`. -/
def round2 (q : ℚ) : ℚ := (roundHalfEven (q * 100) : ℚ) / 100

/-! ## Deficiency Scorer (`calculate_deficiency` in `app.py`) -/

/-- The per-request baseline dict of `calculate_deficiency`; the dict has
five fixed keys (`"Protein_g"`, `"Vitamin C_mg"`, `"Iron_mg"`,
`"Calcium_mg"`, `"Fiber_g"`), embedded as a record. -/
structure Baseline where
  protein_g : ℚ
  vitaminC_mg : ℚ
  iron_mg : ℚ
  calcium_mg : ℚ
  fiber_g : ℚ

/-- The baseline values before BMI adjustment (`Iron` depends on gender). -/
def base_baseline (gender : String) : Baseline :=
  { protein_g := 50
    vitaminC_mg := 90
    iron_mg := if strLower gender = "female" then 18 else 8
    calcium_mg := 1000
    fiber_g := 30 }

/-- `weight_kg / ((height_cm / 100.0) ** 2) if height_cm > 0 else 0`. -/
def bmi_value (height_cm weight_kg : ℚ) : ℚ :=
  if height_cm > 0 then weight_kg / ((height_cm / 100) ^ 2) else 0

/-- `for k in baseline: baseline[k] *= f` — scale every entry. -/
def scaleBaseline (b : Baseline) (f : ℚ) : Baseline :=
  { protein_g := b.protein_g * f
    vitaminC_mg := b.vitaminC_mg * f
    iron_mg := b.iron_mg * f
    calcium_mg := b.calcium_mg * f
    fiber_g := b.fiber_g * f }

/-- `if bmi and bmi < 18.5: ... *= 1.10  elif bmi and bmi > 25: ... *= 0.90`.
Python truthiness of a float is `≠ 0`. -/
def adjust_baseline (b : Baseline) (bmi : ℚ) : Baseline :=
  if bmi ≠ 0 ∧ bmi < 18.5 then scaleBaseline b 1.10
  else if bmi ≠ 0 ∧ bmi > 25 then scaleBaseline b 0.90
  else b

/-- The gender- and BMI-adjusted baseline used by the Deficiency Scorer. -/
def deficiency_baseline (gender : String) (height_cm weight_kg : ℚ) : Baseline :=
  adjust_baseline (base_baseline gender) (bmi_value height_cm weight_kg)

/-- One iteration of the mg-baseline loop of `calculate_deficiency`
(`Vitamin C` / `Iron` / `Calcium`): flag when `have < need * 0.6` and report
`round(need - have, 2)` with suffix `"mg"`. -/
def mgDeficiency (totals : Totals) (short_key : String) (need : ℚ) :
    List (String × ℚ × String) :=
  if dictGet totals short_key < need * 0.6 then
    [(short_key, round2 (need - dictGet totals short_key), "mg")]
  else []

/-- `calculate_deficiency`: the deficiency dict, in its insertion order
(`Protein`, `Fiber`, `Vitamin C`, `Iron`, `Calcium`).  Each entry carries the
rounded numeric shortfall and the unit suffix of the formatted string. -/
def calculate_deficiency (totals : Totals) (gender : String)
    (height_cm weight_kg : ℚ) : List (String × ℚ × String) :=
  (if dictGet totals "Protein" <
      ((deficiency_baseline gender height_cm weight_kg).protein_g * 1000) * 0.6 then
    [("Protein",
      round2 (((deficiency_baseline gender height_cm weight_kg).protein_g * 1000 -
        dictGet totals "Protein") / 1000), "g")]
  else []) ++
  (if dictGet totals "Fiber" <
      ((deficiency_baseline gender height_cm weight_kg).fiber_g * 1000) * 0.6 then
    [("Fiber",
      round2 (((deficiency_baseline gender height_cm weight_kg).fiber_g * 1000 -
        dictGet totals "Fiber") / 1000), "g")]
  else []) ++
  mgDeficiency totals "Vitamin C" (deficiency_baseline gender height_cm weight_kg).vitaminC_mg ++
  mgDeficiency totals "Iron" (deficiency_baseline gender height_cm weight_kg).iron_mg ++
  mgDeficiency totals "Calcium" (deficiency_baseline gender height_cm weight_kg).calcium_mg

/-- Lookup in the deficiency dict (Python `deficiencies.get(k)` /
`k in deficiencies`). -/
def defGet : List (String × ℚ × String) → String → Option (ℚ × String)
  | [], _ => none
  | e :: rest, k => if e.1 = k then some (e.2.1, e.2.2) else defGet rest k

/-! ## Unit Normalizer (`convert_to_mg`) -/

/-- `convert_to_mg`: grams scale by 1000, milligrams and every unknown unit
pass through unchanged. -/
def convert_to_mg (amount : ℚ) (unit : String) : ℚ :=
  let u := strLower unit
  if u = "g" ∨ u = "gram" ∨ u = "grams" then amount * 1000
  else if u = "mg" ∨ u = "milligram" ∨ u = "milligrams" then amount
  else amount

/-! ## Nutrient Matcher (`NUTRIENT_KEY_MAP` and the loop in `analyze`) -/

/-- Does the character list `needle` stand at the head of `hay`? -/
def charsMatchAt : List Char → List Char → Bool
  | [], _ => true
  | _ :: _, [] => false
  | c :: cs, d :: ds => c == d && charsMatchAt cs ds

/-- Does `hay` contain `needle` as a contiguous run? -/
def charsContain (needle : List Char) : List Char → Bool
  | [] => needle.isEmpty
  | d :: ds => charsMatchAt needle (d :: ds) || charsContain needle ds

/-- Python `needle in hay` on strings. -/
def strContains (hay needle : String) : Bool :=
  charsContain needle.toList hay.toList

/-- `NUTRIENT_KEY_MAP`, in Python-dict insertion order. -/
def NUTRIENT_KEY_MAP : List (String × List String) :=
  [("Protein", ["protein"]),
   ("Vitamin C", ["vitamin c", "ascorbic acid"]),
   ("Iron", ["iron"]),
   ("Calcium", ["calcium"]),
   ("Fiber", ["fiber", "dietary fiber"])]

/-- The matching loop of `analyze`: lower-case the free-text name and return
the first canonical name (in `NUTRIENT_KEY_MAP` iteration order) one of whose
substrings occurs in it; `none` when nothing matches. -/
def matchNutrient (full_name : String) : Option String :=
  (NUTRIENT_KEY_MAP.find? fun p =>
      p.2.any fun s => strContains (strLower full_name) s).map (fun p => p.1)

/-! ## Nutrient Aggregator (the totals loop of `analyze`) -/

/-- One food-database nutrient record: free-text name, per-100g value, unit
(an entry of the dict returned by `get_food_nutrients`). -/
abbrev NutrientRecord := String × ℚ × String

/-- `totals_mg[matched_key] = totals_mg.get(matched_key, 0.0) + amount_mg`. -/
def add_to_totals (t : Totals) (k : String) (amount_mg : ℚ) : Totals :=
  dictSet t k (dictGet t k + amount_mg)

/-- The inner loop body of `analyze`: scale the per-100g value by
`qty_g / 100`, match the name, convert to milligrams, accumulate; unmatched
names contribute nothing. -/
def foldNutrient (qty_g : ℚ) (t : Totals) (e : NutrientRecord) : Totals :=
  match matchNutrient e.1 with
  | none => t
  | some k => add_to_totals t k (convert_to_mg (e.2.1 * (qty_g / 100)) e.2.2)

/-- Process one requested food item: strip the name, skip empty names and
non-positive quantities, and fold every nutrient record of the food-database
lookup into the totals. -/
def processItem (db : String → List NutrientRecord) (t : Totals)
    (item : String × ℚ) : Totals :=
  let name := pyStrip item.1
  let qty_g := item.2
  if name = "" ∨ qty_g ≤ 0 then t
  else (db name).foldl (foldNutrient qty_g) t

/-- The whole totals loop of `analyze` over the request's item list,
starting from the empty dict. -/
def aggregate_totals (db : String → List NutrientRecord)
    (items : List (String × ℚ)) : Totals :=
  items.foldl (processItem db) []

/-! ## Food Recommender (`recommend_foods`) -/

/-- The current-weather dict (only the fields `recommend_foods` reads). -/
structure Weather where
  condition : String
  temp : ℚ
  humidity : ℚ

/-- An entry of the recommendation list: the static table rows are pairs
`(food, perServingAmount)`, the weather rows are triples `(food, "-", "-")`. -/
inductive RecEntry where
  | pair (food amount : String)
  | triple (food a b : String)
deriving DecidableEq

/-- The static nutrient → foods table `base` of `recommend_foods`. -/
def recommend_base : List (String × List (String × String)) :=
  [("Protein", [("Chicken", "27 g"), ("Eggs", "13 g"), ("Paneer", "18 g")]),
   ("Iron", [("Spinach", "2.7 mg"), ("Liver", "6.5 mg"), ("Beans", "3.7 mg")]),
   ("Calcium", [("Milk", "120 mg"), ("Curd", "80 mg"), ("Almonds", "75 mg")]),
   ("Fiber", [("Oats", "10 g"), ("Apple", "4.5 g"), ("Carrots", "3 g")]),
   ("Vitamin C", [("Orange", "53 mg"), ("Guava", "200 mg"), ("Kiwi", "90 mg")])]

/-- Python `base.get(n, [])`. -/
def baseGet (n : String) : List (String × String) :=
  match recommend_base.find? (fun p => p.1 = n) with
  | some p => p.2
  | none => []

/-- `weather and weather.get("temp", 0) > 30` (a missing snapshot is falsy). -/
def weatherHot : Option Weather → Bool
  | some w => decide (w.temp > 30)
  | none => false

/-- `recommend_foods`: extend with the table foods of every deficient
nutrient in the deficiency dict's order, append the two weather-conditioned
foods, and truncate to the first 10 entries. -/
def recommend_foods (defic : List (String × ℚ × String))
    (weather : Option Weather) : List RecEntry :=
  let temp_foods : List String :=
    if weatherHot weather then ["Cucumber", "Yogurt"] else ["Soup", "Eggs"]
  let rec0 := defic.foldl
    (fun acc d => acc ++ (baseGet d.1).map fun p => RecEntry.pair p.1 p.2) []
  let rec1 := temp_foods.foldl (fun acc f => acc ++ [RecEntry.triple f "-" "-"]) rec0
  rec1.take 10

/-! ## Response Parser (`_extract_json_from_text` and the extraction in
`consult_with_gemini`; `_parse_json_like` in `diet_consult.py` is the same
code).  `json.loads` is embedded as an executable fuelled JSON parser. -/

/-- A parsed JSON value (Python `json.loads` result; ints and floats are
merged into `ℚ`). -/
inductive Json where
  | null : Json
  | bool (b : Bool) : Json
  | num (q : ℚ) : Json
  | str (s : String) : Json
  | arr (xs : List Json) : Json
  | obj (kvs : List (String × Json)) : Json

/-- JSON insignificant whitespace (space, tab, line feed, carriage return). -/
def skipWs (cs : List Char) : List Char :=
  cs.dropWhile fun c => c == ' ' || c == '\t' || c == '\n' || c == '\r'

/-- The value of one hexadecimal digit. -/
def hexVal (c : Char) : Option Nat :=
  if '0' ≤ c ∧ c ≤ '9' then some (c.toNat - '0'.toNat)
  else if 'a' ≤ c ∧ c ≤ 'f' then some (c.toNat - 'a'.toNat + 10)
  else if 'A' ≤ c ∧ c ≤ 'F' then some (c.toNat - 'A'.toNat + 10)
  else none

/-- Parse the body of a JSON string (the opening quote already consumed);
strict mode: raw control characters are rejected. -/
def parseStringBody : Nat → List Char → List Char → Option (String × List Char)
  | 0, _, _ => none
  | _ + 1, _, [] => none
  | fuel + 1, acc, c :: rest =>
    if c == '"' then some (String.mk acc.reverse, rest)
    else if c == '\\' then
      match rest with
      | [] => none
      | e :: rest2 =>
        if e == '"' then parseStringBody fuel ('"' :: acc) rest2
        else if e == '\\' then parseStringBody fuel ('\\' :: acc) rest2
        else if e == '/' then parseStringBody fuel ('/' :: acc) rest2
        else if e == 'b' then parseStringBody fuel ('\x08' :: acc) rest2
        else if e == 'f' then parseStringBody fuel ('\x0C' :: acc) rest2
        else if e == 'n' then parseStringBody fuel ('\n' :: acc) rest2
        else if e == 'r' then parseStringBody fuel ('\r' :: acc) rest2
        else if e == 't' then parseStringBody fuel ('\t' :: acc) rest2
        else if e == 'u' then
          match rest2 with
          | h1 :: h2 :: h3 :: h4 :: rest3 =>
            match hexVal h1, hexVal h2, hexVal h3, hexVal h4 with
            | some a, some b, some c2, some d =>
              parseStringBody fuel
                (Char.ofNat (a * 4096 + b * 256 + c2 * 16 + d) :: acc) rest3
            | _, _, _, _ => none
          | _ => none
        else none
    else if c.toNat < 32 then none
    else parseStringBody fuel (c :: acc) rest

/-- The natural number written by a list of decimal digits. -/
def digitsToNat (ds : List Char) : Nat :=
  ds.foldl (fun n c => n * 10 + (c.toNat - '0'.toNat)) 0

/-- Multiply by a signed power of ten (the `e`/`E` part of a JSON number). -/
def applyExp (q : ℚ) (e : ℤ) : ℚ :=
  if 0 ≤ e then q * (10 : ℚ) ^ e.toNat else q / (10 : ℚ) ^ (-e).toNat

/-- Parse the optional exponent part and finish a JSON number. -/
def parseNumTail (sign mag : ℚ) (cs : List Char) : Option (ℚ × List Char) :=
  match cs with
  | 'e' :: rest =>
    let se : ℤ × List Char :=
      match rest with
      | '+' :: r => (1, r)
      | '-' :: r => (-1, r)
      | _ => (1, rest)
    let eds := se.2.takeWhile Char.isDigit
    if eds.isEmpty then none
    else some (sign * applyExp mag (se.1 * (digitsToNat eds : ℤ)),
      se.2.dropWhile Char.isDigit)
  | 'E' :: rest =>
    let se : ℤ × List Char :=
      match rest with
      | '+' :: r => (1, r)
      | '-' :: r => (-1, r)
      | _ => (1, rest)
    let eds := se.2.takeWhile Char.isDigit
    if eds.isEmpty then none
    else some (sign * applyExp mag (se.1 * (digitsToNat eds : ℤ)),
      se.2.dropWhile Char.isDigit)
  | _ => some (sign * mag, cs)

/-- Parse a JSON number (strict grammar: no leading zeros, no bare `.`). -/
def parseNumber (cs : List Char) : Option (ℚ × List Char) :=
  let sp : ℚ × List Char := match cs with | '-' :: rest => (-1, rest) | _ => (1, cs)
  let ids := sp.2.takeWhile Char.isDigit
  let cs2 := sp.2.dropWhile Char.isDigit
  if ids.isEmpty then none
  else if 2 ≤ ids.length ∧ ids.headD '0' = '0' then none
  else
    match cs2 with
    | '.' :: rest =>
      let fds := rest.takeWhile Char.isDigit
      if fds.isEmpty then none
      else parseNumTail sp.1
        ((digitsToNat ids : ℚ) + (digitsToNat fds : ℚ) / (10 : ℚ) ^ fds.length)
        (rest.dropWhile Char.isDigit)
    | _ => parseNumTail sp.1 (digitsToNat ids : ℚ) cs2

mutual

/-- Parse one JSON value at the head of the input (after whitespace). -/
def parseValue : Nat → List Char → Option (Json × List Char)
  | 0, _ => none
  | fuel + 1, cs =>
    match skipWs cs with
    | [] => none
    | c :: rest =>
      if c == '\x7b' then parseObjBody fuel (skipWs rest)
      else if c == '[' then parseArrBody fuel (skipWs rest)
      else if c == '"' then
        match parseStringBody (rest.length + 1) [] rest with
        | some (s, r) => some (Json.str s, r)
        | none => none
      else if c == 't' then
        match rest with
        | 'r' :: 'u' :: 'e' :: r => some (Json.bool true, r)
        | _ => none
      else if c == 'f' then
        match rest with
        | 'a' :: 'l' :: 's' :: 'e' :: r => some (Json.bool false, r)
        | _ => none
      else if c == 'n' then
        match rest with
        | 'u' :: 'l' :: 'l' :: r => some (Json.null, r)
        | _ => none
      else if c == '-' || c.isDigit then
        match parseNumber (c :: rest) with
        | some (q, r) => some (Json.num q, r)
        | none => none
      else none

/-- Parse an object body (the opening brace and whitespace consumed). -/
def parseObjBody : Nat → List Char → Option (Json × List Char)
  | 0, _ => none
  | fuel + 1, cs =>
    match cs with
    | '\x7d' :: rest => some (Json.obj [], rest)
    | _ => parseMembers fuel cs []

/-- Parse the remaining `"key": value` members of an object. -/
def parseMembers : Nat → List Char → List (String × Json) →
    Option (Json × List Char)
  | 0, _, _ => none
  | fuel + 1, cs, acc =>
    match skipWs cs with
    | '"' :: rest =>
      match parseStringBody (rest.length + 1) [] rest with
      | none => none
      | some (key, r1) =>
        match skipWs r1 with
        | ':' :: r2 =>
          match parseValue fuel r2 with
          | none => none
          | some (v, r3) =>
            match skipWs r3 with
            | ',' :: r4 => parseMembers fuel r4 (acc ++ [(key, v)])
            | '\x7d' :: r4 => some (Json.obj (acc ++ [(key, v)]), r4)
            | _ => none
        | _ => none
    | _ => none

/-- Parse an array body (the opening bracket and whitespace consumed). -/
def parseArrBody : Nat → List Char → Option (Json × List Char)
  | 0, _ => none
  | fuel + 1, cs =>
    match cs with
    | ']' :: rest => some (Json.arr [], rest)
    | _ => parseElems fuel cs []

/-- Parse the remaining elements of an array. -/
def parseElems : Nat → List Char → List Json → Option (Json × List Char)
  | 0, _, _ => none
  | fuel + 1, cs, acc =>
    match parseValue fuel cs with
    | none => none
    | some (v, r1) =>
      match skipWs r1 with
      | ',' :: r2 => parseElems fuel r2 (acc ++ [v])
      | ']' :: r2 => some (Json.arr (acc ++ [v]), r2)
      | _ => none

end

/-- `json.loads`: parse a complete JSON document (surrounding whitespace
allowed, trailing garbage refused); deep nesting runs out of fuel and fails,
as CPython fails with a recursion error. -/
def jsonParse (s : String) : Option Json :=
  let cs := s.toList
  match parseValue (2 * cs.length + 2) cs with
  | some (j, rest) => if (skipWs rest).isEmpty then some j else none
  | none => none

/-- `re.search(r"\x7b.*\x7d", text, flags=re.S)`: the greedy span from the
first opening brace to the last closing brace, when the latter comes after
the former. -/
def braceSpan (text : String) : Option String :=
  let cs := text.toList
  match cs.findIdx? (· == '\x7b') with
  | none => none
  | some i =>
    match cs.reverse.findIdx? (· == '\x7d') with
    | none => none
    | some rj =>
      let j := cs.length - 1 - rj
      if i < j then some (String.mk ((cs.drop i).take (j - i + 1))) else none

/-- The fallback dict
`{"summary": text.strip(), "meal_plan": [], "advice": ""}`. -/
def fallbackResult (text : String) : Json :=
  Json.obj [("summary", Json.str (pyStrip text)),
            ("meal_plan", Json.arr []),
            ("advice", Json.str "")]

/-- `_extract_json_from_text` (identically `_parse_json_like`): parse the
brace span when it exists, fall back to the trimmed text on any failure. -/
def extract_json_from_text (text : String) : Json :=
  match braceSpan text with
  | some span =>
    match jsonParse span with
    | some j => j
    | none => fallbackResult text
  | none => fallbackResult text

/-- Python `parsed.get(k, default)` on a JSON object (`json.loads` keeps the
last of duplicate keys). -/
def objGetD (j : Json) (k : String) (d : Json) : Json :=
  match j with
  | Json.obj kvs =>
    match kvs.reverse.find? (fun p => p.1 = k) with
    | some p => p.2
    | none => d
  | _ => d

/-- The field extraction of `consult_with_gemini` (and `consult_profile`):
summary / meal_plan / advice with empty defaults. -/
def consultFields (text : String) : Json × Json × Json :=
  let parsed := extract_json_from_text text
  (objGetD parsed "summary" (Json.str ""),
   objGetD parsed "meal_plan" (Json.arr []),
   objGetD parsed "advice" (Json.str ""))

/-! ## Spec-side definitions and proof-layer measures -/

/-- The five canonical tracked nutrients (the keys of `NUTRIENT_KEY_MAP`). -/
def canonicalNames : List String :=
  ["Protein", "Vitamin C", "Iron", "Calcium", "Fiber"]

/-- The converted (milligram) per-100g contribution of one nutrient record. -/
def entryAmount (e : NutrientRecord) : ℚ := convert_to_mg e.2.1 e.2.2

/-- The per-100g milligram contribution that a list of nutrient records makes
to one canonical nutrient. -/
def contribSum : List NutrientRecord → String → ℚ
  | [], _ => 0
  | e :: es, k =>
    (if matchNutrient e.1 = some k then entryAmount e else 0) + contribSum es k

/-- How one nutrient record evolves the key list of the totals dict. -/
def keysStep (ks : List String) (e : NutrientRecord) : List String :=
  match matchNutrient e.1 with
  | none => ks
  | some k => if k ∈ ks then ks else ks ++ [k]

/-- Modelled from the spec (amended claim wording): the common factor by
which the BMI adjustment scales every baseline. -/
def specAdjustFactor (m : ℚ) : ℚ :=
  if m ≠ 0 ∧ m < 18.5 then 1.10 else if 25 < m then 0.90 else 1

/-- Modelled from the spec (amended claim wording): the reported shortfall of
a flagged nutrient is the full adjusted baseline minus the accumulated total,
rounded to 2 decimals (grams for Protein/Fiber, milligrams for the rest). -/
def specFullShortfall (b : Baseline) (totals : Totals) : String → ℚ
  | "Protein" => round2 ((b.protein_g * 1000 - dictGet totals "Protein") / 1000)
  | "Fiber" => round2 ((b.fiber_g * 1000 - dictGet totals "Fiber") / 1000)
  | "Vitamin C" => round2 (b.vitaminC_mg - dictGet totals "Vitamin C")
  | "Iron" => round2 (b.iron_mg - dictGet totals "Iron")
  | "Calcium" => round2 (b.calcium_mg - dictGet totals "Calcium")
  | _ => 0

/-- A concrete food-database stub used only to instantiate theorems with
hypotheses at a concrete input. -/
def sampleDb : String → List NutrientRecord :=
  fun _ => [("Protein", 1.1, "g"), ("Fiber, total dietary", 2.6, "g")]

/-! ## Deficiency Scorer lemmas -/

theorem defGet_calc_protein (totals : Totals) (gender : String)
    (h w : ℚ) :
    defGet (calculate_deficiency totals gender h w) "Protein" =
      if dictGet totals "Protein" <
          ((deficiency_baseline gender h w).protein_g * 1000) * 0.6 then
        some (round2 (((deficiency_baseline gender h w).protein_g * 1000 -
          dictGet totals "Protein") / 1000), "g")
      else none := by
  unfold calculate_deficiency mgDeficiency
  split_ifs <;> rfl

theorem defGet_calc_fiber (totals : Totals) (gender : String)
    (h w : ℚ) :
    defGet (calculate_deficiency totals gender h w) "Fiber" =
      if dictGet totals "Fiber" <
          ((deficiency_baseline gender h w).fiber_g * 1000) * 0.6 then
        some (round2 (((deficiency_baseline gender h w).fiber_g * 1000 -
          dictGet totals "Fiber") / 1000), "g")
      else none := by
  unfold calculate_deficiency mgDeficiency
  split_ifs <;> rfl

theorem defGet_calc_vitaminC (totals : Totals) (gender : String)
    (h w : ℚ) :
    defGet (calculate_deficiency totals gender h w) "Vitamin C" =
      if dictGet totals "Vitamin C" <
          (deficiency_baseline gender h w).vitaminC_mg * 0.6 then
        some (round2 ((deficiency_baseline gender h w).vitaminC_mg -
          dictGet totals "Vitamin C"), "mg")
      else none := by
  unfold calculate_deficiency mgDeficiency
  split_ifs <;> rfl

theorem defGet_calc_iron (totals : Totals) (gender : String)
    (h w : ℚ) :
    defGet (calculate_deficiency totals gender h w) "Iron" =
      if dictGet totals "Iron" <
          (deficiency_baseline gender h w).iron_mg * 0.6 then
        some (round2 ((deficiency_baseline gender h w).iron_mg -
          dictGet totals "Iron"), "mg")
      else none := by
  unfold calculate_deficiency mgDeficiency
  split_ifs <;> rfl

theorem defGet_calc_calcium (totals : Totals) (gender : String)
    (h w : ℚ) :
    defGet (calculate_deficiency totals gender h w) "Calcium" =
      if dictGet totals "Calcium" <
          (deficiency_baseline gender h w).calcium_mg * 0.6 then
        some (round2 ((deficiency_baseline gender h w).calcium_mg -
          dictGet totals "Calcium"), "mg")
      else none := by
  unfold calculate_deficiency mgDeficiency
  split_ifs <;> rfl

theorem defGet_calc_other (totals : Totals) (gender : String) (h w : ℚ)
    (k : String) (hP : k ≠ "Protein") (hF : k ≠ "Fiber")
    (hV : k ≠ "Vitamin C") (hI : k ≠ "Iron") (hC : k ≠ "Calcium") :
    defGet (calculate_deficiency totals gender h w) k = none := by
  unfold calculate_deficiency mgDeficiency
  split_ifs <;>
    simp [defGet, Ne.symm hP, Ne.symm hF, Ne.symm hV, Ne.symm hI, Ne.symm hC]

/-- C1: a canonical nutrient is flagged deficient exactly when its
accumulated total is strictly below 60% of its adjusted baseline, with the
grams-based Protein and Fiber baselines compared in milligrams; a total
exactly at the 60% threshold is not flagged. -/
theorem deficiency_flag_iff_below_60_percent :
    ∀ (totals : Totals) (gender : String) (height_cm weight_kg : ℚ),
      (defGet (calculate_deficiency totals gender height_cm weight_kg) "Protein" ≠ none ↔
        dictGet totals "Protein" <
          0.6 * ((deficiency_baseline gender height_cm weight_kg).protein_g * 1000)) ∧
      (defGet (calculate_deficiency totals gender height_cm weight_kg) "Fiber" ≠ none ↔
        dictGet totals "Fiber" <
          0.6 * ((deficiency_baseline gender height_cm weight_kg).fiber_g * 1000)) ∧
      (defGet (calculate_deficiency totals gender height_cm weight_kg) "Vitamin C" ≠ none ↔
        dictGet totals "Vitamin C" <
          0.6 * (deficiency_baseline gender height_cm weight_kg).vitaminC_mg) ∧
      (defGet (calculate_deficiency totals gender height_cm weight_kg) "Iron" ≠ none ↔
        dictGet totals "Iron" <
          0.6 * (deficiency_baseline gender height_cm weight_kg).iron_mg) ∧
      (defGet (calculate_deficiency totals gender height_cm weight_kg) "Calcium" ≠ none ↔
        dictGet totals "Calcium" <
          0.6 * (deficiency_baseline gender height_cm weight_kg).calcium_mg) := by
  intro totals gender h w
  refine ⟨?_, ?_, ?_, ?_, ?_⟩
  · rw [defGet_calc_protein]
    split_ifs with hc
    · exact iff_of_true (by simp) (by linarith)
    · exact iff_of_false (by simp) (fun hb => hc (by linarith))
  · rw [defGet_calc_fiber]
    split_ifs with hc
    · exact iff_of_true (by simp) (by linarith)
    · exact iff_of_false (by simp) (fun hb => hc (by linarith))
  · rw [defGet_calc_vitaminC]
    split_ifs with hc
    · exact iff_of_true (by simp) (by linarith)
    · exact iff_of_false (by simp) (fun hb => hc (by linarith))
  · rw [defGet_calc_iron]
    split_ifs with hc
    · exact iff_of_true (by simp) (by linarith)
    · exact iff_of_false (by simp) (fun hb => hc (by linarith))
  · rw [defGet_calc_calcium]
    split_ifs with hc
    · exact iff_of_true (by simp) (by linarith)
    · exact iff_of_false (by simp) (fun hb => hc (by linarith))

/-- C2: the value reported for a flagged nutrient is the full adjusted
baseline minus the accumulated total, rounded to 2 decimals, with unit
suffix `"g"` for Protein and Fiber and `"mg"` for Vitamin C, Iron and
Calcium. -/
theorem deficiency_reported_value_full_baseline :
    ∀ (totals : Totals) (gender : String) (height_cm weight_kg : ℚ)
      (n : String) (v : ℚ) (u : String),
      defGet (calculate_deficiency totals gender height_cm weight_kg) n = some (v, u) →
      (n = "Protein" ∧ u = "g" ∧
        v = round2 ((deficiency_baseline gender height_cm weight_kg).protein_g -
          dictGet totals "Protein" / 1000)) ∨
      (n = "Fiber" ∧ u = "g" ∧
        v = round2 ((deficiency_baseline gender height_cm weight_kg).fiber_g -
          dictGet totals "Fiber" / 1000)) ∨
      (n = "Vitamin C" ∧ u = "mg" ∧
        v = round2 ((deficiency_baseline gender height_cm weight_kg).vitaminC_mg -
          dictGet totals "Vitamin C")) ∨
      (n = "Iron" ∧ u = "mg" ∧
        v = round2 ((deficiency_baseline gender height_cm weight_kg).iron_mg -
          dictGet totals "Iron")) ∨
      (n = "Calcium" ∧ u = "mg" ∧
        v = round2 ((deficiency_baseline gender height_cm weight_kg).calcium_mg -
          dictGet totals "Calcium")) := by
  intro totals gender h w n v u hdef
  by_cases hP : n = "Protein"
  · subst hP
    rw [defGet_calc_protein] at hdef
    split_ifs at hdef
    simp only [Option.some.injEq, Prod.mk.injEq] at hdef
    refine Or.inl ⟨rfl, hdef.2.symm, ?_⟩
    rw [← hdef.1]
    congr 1
    ring
  by_cases hF : n = "Fiber"
  · subst hF
    rw [defGet_calc_fiber] at hdef
    split_ifs at hdef
    simp only [Option.some.injEq, Prod.mk.injEq] at hdef
    refine Or.inr (Or.inl ⟨rfl, hdef.2.symm, ?_⟩)
    rw [← hdef.1]
    congr 1
    ring
  by_cases hV : n = "Vitamin C"
  · subst hV
    rw [defGet_calc_vitaminC] at hdef
    split_ifs at hdef
    simp only [Option.some.injEq, Prod.mk.injEq] at hdef
    exact Or.inr (Or.inr (Or.inl ⟨rfl, hdef.2.symm, hdef.1.symm⟩))
  by_cases hI : n = "Iron"
  · subst hI
    rw [defGet_calc_iron] at hdef
    split_ifs at hdef
    simp only [Option.some.injEq, Prod.mk.injEq] at hdef
    exact Or.inr (Or.inr (Or.inr (Or.inl ⟨rfl, hdef.2.symm, hdef.1.symm⟩)))
  by_cases hC : n = "Calcium"
  · subst hC
    rw [defGet_calc_calcium] at hdef
    split_ifs at hdef
    simp only [Option.some.injEq, Prod.mk.injEq] at hdef
    exact Or.inr (Or.inr (Or.inr (Or.inr ⟨rfl, hdef.2.symm, hdef.1.symm⟩)))
  · rw [defGet_calc_other totals gender h w n hP hF hV hI hC] at hdef
    exact absurd hdef (by simp)

/-- Witness for C2 at a concrete input: 20 g of protein against the
unadjusted male baseline of 50 g reports a 30 g shortfall. -/
theorem deficiency_reported_value_full_baseline_witness :
    ("Protein" = "Protein" ∧ "g" = "g" ∧
      (30 : ℚ) = round2 ((deficiency_baseline "male" 0 0).protein_g -
        dictGet [("Protein", 20000)] "Protein" / 1000)) ∨
    ("Protein" = "Fiber" ∧ "g" = "g" ∧
      (30 : ℚ) = round2 ((deficiency_baseline "male" 0 0).fiber_g -
        dictGet [("Protein", 20000)] "Fiber" / 1000)) ∨
    ("Protein" = "Vitamin C" ∧ "g" = "mg" ∧
      (30 : ℚ) = round2 ((deficiency_baseline "male" 0 0).vitaminC_mg -
        dictGet [("Protein", 20000)] "Vitamin C")) ∨
    ("Protein" = "Iron" ∧ "g" = "mg" ∧
      (30 : ℚ) = round2 ((deficiency_baseline "male" 0 0).iron_mg -
        dictGet [("Protein", 20000)] "Iron")) ∨
    ("Protein" = "Calcium" ∧ "g" = "mg" ∧
      (30 : ℚ) = round2 ((deficiency_baseline "male" 0 0).calcium_mg -
        dictGet [("Protein", 20000)] "Calcium")) :=
  deficiency_reported_value_full_baseline
    [("Protein", 20000)] "male" 0 0 "Protein" 30 "g" (by with_unfolding_all decide)

/-- Counterexample to C3: with a 20 g protein total against the 50 g male
baseline the code reports a 30 g shortfall, not the
`0.6 × baseline − total = 10 g` the claim predicts. -/
theorem deficiency_value_not_threshold_shortfall_counterexample :
    defGet (calculate_deficiency [("Protein", 20000)] "male" 0 0) "Protein" =
      some (30, "g") ∧
    (30 : ℚ) ≠
      0.6 * (deficiency_baseline "male" 0 0).protein_g -
        dictGet [("Protein", 20000)] "Protein" / 1000 := by
  constructor
  · with_unfolding_all decide
  · with_unfolding_all decide

/-- C3 as amended: the reported deficiency of a flagged nutrient is the
full adjusted baseline minus the accumulated total (rounded to 2 decimals),
not the distance to the 60% threshold. -/
theorem deficiency_value_is_full_baseline_shortfall :
    ∀ (totals : Totals) (gender : String) (height_cm weight_kg : ℚ)
      (n : String) (v : ℚ) (u : String),
      defGet (calculate_deficiency totals gender height_cm weight_kg) n = some (v, u) →
      v = specFullShortfall (deficiency_baseline gender height_cm weight_kg) totals n := by
  intro totals gender h w n v u hdef
  by_cases hP : n = "Protein"
  · subst hP
    rw [defGet_calc_protein] at hdef
    split_ifs at hdef
    simp only [Option.some.injEq, Prod.mk.injEq] at hdef
    simp only [specFullShortfall]
    exact hdef.1.symm
  by_cases hF : n = "Fiber"
  · subst hF
    rw [defGet_calc_fiber] at hdef
    split_ifs at hdef
    simp only [Option.some.injEq, Prod.mk.injEq] at hdef
    simp only [specFullShortfall]
    exact hdef.1.symm
  by_cases hV : n = "Vitamin C"
  · subst hV
    rw [defGet_calc_vitaminC] at hdef
    split_ifs at hdef
    simp only [Option.some.injEq, Prod.mk.injEq] at hdef
    simp only [specFullShortfall]
    exact hdef.1.symm
  by_cases hI : n = "Iron"
  · subst hI
    rw [defGet_calc_iron] at hdef
    split_ifs at hdef
    simp only [Option.some.injEq, Prod.mk.injEq] at hdef
    simp only [specFullShortfall]
    exact hdef.1.symm
  by_cases hC : n = "Calcium"
  · subst hC
    rw [defGet_calc_calcium] at hdef
    split_ifs at hdef
    simp only [Option.some.injEq, Prod.mk.injEq] at hdef
    simp only [specFullShortfall]
    exact hdef.1.symm
  · rw [defGet_calc_other totals gender h w n hP hF hV hI hC] at hdef
    exact absurd hdef (by simp)

/-- Witness for the amended C3 at a concrete input. -/
theorem deficiency_value_is_full_baseline_shortfall_witness :
    (30 : ℚ) =
      specFullShortfall (deficiency_baseline "male" 0 0)
        [("Protein", 20000)] "Protein" :=
  deficiency_value_is_full_baseline_shortfall
    [("Protein", 20000)] "male" 0 0 "Protein" 30 "g" (by with_unfolding_all decide)

theorem deficiency_baseline_cases (gender : String) (h w : ℚ) :
    deficiency_baseline gender h w = scaleBaseline (base_baseline gender) 1.10 ∨
    deficiency_baseline gender h w = scaleBaseline (base_baseline gender) 0.90 ∨
    deficiency_baseline gender h w = base_baseline gender := by
  unfold deficiency_baseline adjust_baseline
  split_ifs
  · exact Or.inl rfl
  · exact Or.inr (Or.inl rfl)
  · exact Or.inr (Or.inr rfl)

theorem base_baseline_cases (gender : String) :
    base_baseline gender = ⟨50, 90, 18, 1000, 30⟩ ∨
    base_baseline gender = ⟨50, 90, 8, 1000, 30⟩ := by
  unfold base_baseline
  split_ifs
  · exact Or.inl rfl
  · exact Or.inr rfl

set_option maxRecDepth 100000 in
theorem calc_deficiency_empty (gender : String) (h w : ℚ) :
    calculate_deficiency [] gender h w =
      [("Protein", (deficiency_baseline gender h w).protein_g, "g"),
       ("Fiber", (deficiency_baseline gender h w).fiber_g, "g"),
       ("Vitamin C", (deficiency_baseline gender h w).vitaminC_mg, "mg"),
       ("Iron", (deficiency_baseline gender h w).iron_mg, "mg"),
       ("Calcium", (deficiency_baseline gender h w).calcium_mg, "mg")] := by
  unfold calculate_deficiency mgDeficiency
  rcases deficiency_baseline_cases gender h w with hb | hb | hb <;>
    rcases base_baseline_cases gender with hg | hg <;>
      rw [hb, hg] <;> with_unfolding_all decide

/-- C10: with an empty totals dict every absent nutrient counts as 0, so all
five canonical nutrients are flagged, each reporting its full adjusted
baseline as the shortfall. -/
theorem empty_totals_flags_all_five :
    ∀ (gender : String) (height_cm weight_kg : ℚ),
      calculate_deficiency [] gender height_cm weight_kg =
        [("Protein", (deficiency_baseline gender height_cm weight_kg).protein_g, "g"),
         ("Fiber", (deficiency_baseline gender height_cm weight_kg).fiber_g, "g"),
         ("Vitamin C", (deficiency_baseline gender height_cm weight_kg).vitaminC_mg, "mg"),
         ("Iron", (deficiency_baseline gender height_cm weight_kg).iron_mg, "mg"),
         ("Calcium", (deficiency_baseline gender height_cm weight_kg).calcium_mg, "mg")] :=
  fun gender h w => calc_deficiency_empty gender h w

/-- Counterexample to C4: with height 175 cm and weight −50 kg the BMI is
negative, so neither of the claim's conditions `BMI > 0 ∧ BMI < 18.5` and
`BMI > 25` holds and the claim predicts unchanged baselines; the code
nevertheless multiplies every baseline by 1.10 (Python truthiness
`bmi and bmi < 18.5` only tests `bmi ≠ 0`). -/
theorem bmi_adjustment_counterexample :
    ¬(0 < bmi_value 175 (-50) ∧ bmi_value 175 (-50) < 18.5) ∧
    ¬(bmi_value 175 (-50) > 25) ∧
    (deficiency_baseline "male" 175 (-50)).protein_g = 55 ∧
    (deficiency_baseline "male" 175 (-50)).protein_g ≠ 50 := by
  with_unfolding_all decide

/-- C4 as amended: BMI is `weightKg / (heightCm/100)²` with BMI treated as 0
when heightCm ≤ 0; every baseline (Protein 50 g, Vitamin C 90 mg, Iron 18 mg
for female else 8 mg, Calcium 1000 mg, Fiber 30 g) is multiplied by 1.10 when
BMI ≠ 0 and BMI < 18.5, by 0.90 when BMI > 25, and left unchanged
otherwise. -/
theorem bmi_adjusted_baselines :
    ∀ (gender : String) (height_cm weight_kg : ℚ),
      bmi_value height_cm weight_kg =
        (if height_cm > 0 then weight_kg / ((height_cm / 100) ^ 2) else 0) ∧
      base_baseline gender =
        ⟨50, 90, if strLower gender = "female" then 18 else 8, 1000, 30⟩ ∧
      (deficiency_baseline gender height_cm weight_kg).protein_g =
        (base_baseline gender).protein_g *
          specAdjustFactor (bmi_value height_cm weight_kg) ∧
      (deficiency_baseline gender height_cm weight_kg).vitaminC_mg =
        (base_baseline gender).vitaminC_mg *
          specAdjustFactor (bmi_value height_cm weight_kg) ∧
      (deficiency_baseline gender height_cm weight_kg).iron_mg =
        (base_baseline gender).iron_mg *
          specAdjustFactor (bmi_value height_cm weight_kg) ∧
      (deficiency_baseline gender height_cm weight_kg).calcium_mg =
        (base_baseline gender).calcium_mg *
          specAdjustFactor (bmi_value height_cm weight_kg) ∧
      (deficiency_baseline gender height_cm weight_kg).fiber_g =
        (base_baseline gender).fiber_g *
          specAdjustFactor (bmi_value height_cm weight_kg) := by
  intro gender h w
  refine ⟨rfl, rfl, ?_⟩
  unfold deficiency_baseline adjust_baseline specAdjustFactor scaleBaseline
  by_cases h1 : bmi_value h w ≠ 0 ∧ bmi_value h w < 18.5
  · rw [if_pos h1, if_pos h1]
    exact ⟨rfl, rfl, rfl, rfl, rfl⟩
  · rw [if_neg h1, if_neg h1]
    by_cases h2 : bmi_value h w ≠ 0 ∧ bmi_value h w > 25
    · rw [if_pos h2, if_pos h2.2]
      exact ⟨rfl, rfl, rfl, rfl, rfl⟩
    · have h3 : ¬(bmi_value h w > 25) := fun hgt =>
        h2 ⟨fun h0 => absurd hgt (by rw [h0]; norm_num), hgt⟩
      rw [if_neg h2, if_neg h3]
      refine ⟨?_, ?_, ?_, ?_, ?_⟩ <;> ring

/-! ## Aggregator lemmas -/

theorem convert_to_mg_mul (a s : ℚ) (u : String) :
    convert_to_mg (a * s) u = convert_to_mg a u * s := by
  simp only [convert_to_mg]
  split_ifs <;> ring

theorem convert_to_mg_nonneg (a : ℚ) (u : String) (ha : 0 ≤ a) :
    0 ≤ convert_to_mg a u := by
  simp only [convert_to_mg]
  split_ifs
  · exact mul_nonneg ha (by norm_num)
  · exact ha
  · exact ha

theorem dictGet_dictSet (t : Totals) (k k' : String) (v : ℚ) :
    dictGet (dictSet t k v) k' = if k' = k then v else dictGet t k' := by
  induction t with
  | nil =>
    by_cases h : k' = k
    · subst h
      simp [dictSet, dictGet]
    · have h1 : ¬(k = k') := fun hh => h hh.symm
      simp [dictSet, dictGet, h, h1]
  | cons e rest ih =>
    by_cases he : e.1 = k
    · by_cases h : k' = k
      · subst h
        simp [dictSet, dictGet, he]
      · have h1 : ¬(k = k') := fun hh => h hh.symm
        have h2 : ¬(e.1 = k') := fun hh => h ((he.symm.trans hh).symm)
        simp [dictSet, dictGet, he, h, h1, h2]
    · by_cases h : k' = k
      · subst h
        simp [dictSet, dictGet, he, ih]
      · simp [dictSet, dictGet, he, h, ih]

theorem keysOf_dictSet (t : Totals) (k : String) (v : ℚ) :
    keysOf (dictSet t k v) =
      if k ∈ keysOf t then keysOf t else keysOf t ++ [k] := by
  induction t with
  | nil => simp [dictSet, keysOf]
  | cons e rest ih =>
    by_cases he : e.1 = k
    · subst he
      simp [dictSet, keysOf]
    · have hne : ¬(k = e.1) := fun hh => he hh.symm
      simp only [dictSet, if_neg he, keysOf, List.map_cons] at ih ⊢
      rw [ih]
      by_cases hk : k ∈ rest.map Prod.fst
      · simp [hk, List.mem_cons, hne]
      · simp [hk, List.mem_cons, hne]

theorem dictGet_foldNutrient (qty_g : ℚ) (t : Totals) (e : NutrientRecord)
    (k : String) :
    dictGet (foldNutrient qty_g t e) k =
      dictGet t k +
        (qty_g / 100) *
          (if matchNutrient e.1 = some k then entryAmount e else 0) := by
  unfold foldNutrient add_to_totals
  cases hm : matchNutrient e.1 with
  | none => simp [hm]
  | some k' =>
    rw [dictGet_dictSet, convert_to_mg_mul]
    by_cases hk : k = k'
    · subst hk
      simp [entryAmount, hm]
      ring
    · have h1 : ¬(matchNutrient e.1 = some k) := by
        rw [hm]
        exact fun hh => hk (Option.some.inj hh).symm
      have h2 : ¬(k' = k) := fun hh => hk hh.symm
      simp [hk, h1, h2]

theorem dictGet_foldl_entries (es : List NutrientRecord) (qty_g : ℚ)
    (t : Totals) (k : String) :
    dictGet (es.foldl (foldNutrient qty_g) t) k =
      dictGet t k + (qty_g / 100) * contribSum es k := by
  induction es generalizing t with
  | nil => simp [contribSum]
  | cons e es ih =>
    simp only [List.foldl_cons, contribSum]
    rw [ih, dictGet_foldNutrient]
    ring

theorem keysOf_foldNutrient (qty_g : ℚ) (t : Totals) (e : NutrientRecord) :
    keysOf (foldNutrient qty_g t e) = keysStep (keysOf t) e := by
  unfold foldNutrient add_to_totals keysStep
  cases hm : matchNutrient e.1 with
  | none => rfl
  | some k' => rw [keysOf_dictSet]

theorem keysOf_foldl_entries (es : List NutrientRecord) (qty_g : ℚ)
    (t : Totals) :
    keysOf (es.foldl (foldNutrient qty_g) t) = es.foldl keysStep (keysOf t) := by
  induction es generalizing t with
  | nil => rfl
  | cons e es ih => rw [List.foldl_cons, List.foldl_cons, ih, keysOf_foldNutrient]

theorem keysStep_none (ks : List String) (e : NutrientRecord)
    (h : matchNutrient e.1 = none) : keysStep ks e = ks := by
  unfold keysStep
  rw [h]

theorem keysStep_some (ks : List String) (e : NutrientRecord) (k : String)
    (h : matchNutrient e.1 = some k) :
    keysStep ks e = if k ∈ ks then ks else ks ++ [k] := by
  unfold keysStep
  rw [h]

theorem subset_keysFold (es : List NutrientRecord) (ks : List String) :
    ks ⊆ es.foldl keysStep ks := by
  induction es generalizing ks with
  | nil => exact fun _ h => h
  | cons e es ih =>
    rw [List.foldl_cons]
    refine List.Subset.trans ?_ (ih (keysStep ks e))
    cases hm : matchNutrient e.1 with
    | none =>
      rw [keysStep_none ks e hm]
      exact List.Subset.refl _
    | some k =>
      rw [keysStep_some ks e k hm]
      split_ifs with h
      · exact fun _ h => h
      · exact List.subset_append_left _ _

theorem matched_mem_keysFold :
    ∀ (es : List NutrientRecord) (ks : List String) (e : NutrientRecord)
      (k : String), e ∈ es → matchNutrient e.1 = some k →
      k ∈ es.foldl keysStep ks := by
  intro es
  induction es with
  | nil =>
    intro ks e k he _
    cases he
  | cons e0 es ih =>
    intro ks e k he hm
    rw [List.foldl_cons]
    rcases List.mem_cons.mp he with rfl | he0
    · refine subset_keysFold es (keysStep ks e) ?_
      rw [keysStep_some ks e k hm]
      split_ifs with h
      · exact h
      · exact List.mem_append_right _ (List.mem_singleton.mpr rfl)
    · exact ih (keysStep ks e0) e k he0 hm

theorem keysFold_eq_of_all_mem (es : List NutrientRecord) (ks : List String)
    (h : ∀ e ∈ es, ∀ k, matchNutrient e.1 = some k → k ∈ ks) :
    es.foldl keysStep ks = ks := by
  induction es with
  | nil => rfl
  | cons e es ih =>
    have hstep : keysStep ks e = ks := by
      cases hm : matchNutrient e.1 with
      | none => exact keysStep_none ks e hm
      | some k =>
        rw [keysStep_some ks e k hm, if_pos (h e (List.mem_cons_self e es) k hm)]
    rw [List.foldl_cons, hstep]
    exact ih fun e0 he0 k hm => h e0 (List.mem_cons_of_mem e he0) k hm

/-- C5: aggregating two items of the same food (same database record) at
positive quantities `q1` and `q2` yields the same `NutrientTotals` mapping as
one item at quantity `q1 + q2`: the key lists agree and every key carries the
same accumulated value (exactly, over exact arithmetic). -/
theorem aggregation_additive_in_quantity :
    ∀ (db : String → List NutrientRecord) (food : String) (q1 q2 : ℚ),
      0 < q1 → 0 < q2 →
      keysOf (aggregate_totals db [(food, q1), (food, q2)]) =
        keysOf (aggregate_totals db [(food, q1 + q2)]) ∧
      ∀ k, dictGet (aggregate_totals db [(food, q1), (food, q2)]) k =
        dictGet (aggregate_totals db [(food, q1 + q2)]) k := by
  intro db food q1 q2 hq1 hq2
  unfold aggregate_totals
  simp only [List.foldl_cons, List.foldl_nil]
  by_cases hname : pyStrip food = ""
  · simp [processItem, hname]
  · have hg1 : ¬(pyStrip food = "" ∨ q1 ≤ 0) :=
      not_or.mpr ⟨hname, not_le.mpr hq1⟩
    have hg2 : ¬(pyStrip food = "" ∨ q2 ≤ 0) :=
      not_or.mpr ⟨hname, not_le.mpr hq2⟩
    have hg12 : ¬(pyStrip food = "" ∨ q1 + q2 ≤ 0) :=
      not_or.mpr ⟨hname, not_le.mpr (by linarith)⟩
    simp only [processItem]
    rw [if_neg hg2, if_neg hg1, if_neg hg12]
    constructor
    · rw [keysOf_foldl_entries, keysOf_foldl_entries, keysOf_foldl_entries]
      exact keysFold_eq_of_all_mem _ _
        (fun e he k hm => matched_mem_keysFold _ (keysOf []) e k he hm)
    · intro k
      rw [dictGet_foldl_entries, dictGet_foldl_entries, dictGet_foldl_entries]
      ring

/-- Witness for C5 at a concrete input: 30 g plus 70 g of the same food
aggregates like a single 100 g item. -/
theorem aggregation_additive_in_quantity_witness :
    keysOf (aggregate_totals sampleDb [("banana", 30), ("banana", 70)]) =
      keysOf (aggregate_totals sampleDb [("banana", 30 + 70)]) ∧
    dictGet (aggregate_totals sampleDb [("banana", 30), ("banana", 70)]) "Protein" =
      dictGet (aggregate_totals sampleDb [("banana", 30 + 70)]) "Protein" :=
  ⟨(aggregation_additive_in_quantity sampleDb "banana" 30 70
      (by norm_num) (by norm_num)).1,
   (aggregation_additive_in_quantity sampleDb "banana" 30 70
      (by norm_num) (by norm_num)).2 "Protein"⟩

theorem matchNutrient_mem_canonical (s : String) (k : String)
    (h : matchNutrient s = some k) : k ∈ canonicalNames := by
  unfold matchNutrient at h
  cases hf : NUTRIENT_KEY_MAP.find?
      (fun p => p.2.any fun s0 => strContains (strLower s) s0) with
  | none => rw [hf] at h; simp at h
  | some p =>
    rw [hf] at h
    simp at h
    have hp : p ∈ NUTRIENT_KEY_MAP := List.mem_of_find?_eq_some hf
    fin_cases hp <;> (rw [← h]; simp [canonicalNames])

theorem keysFold_subset_canonical (es : List NutrientRecord)
    (ks : List String) (h : ks ⊆ canonicalNames) :
    es.foldl keysStep ks ⊆ canonicalNames := by
  induction es generalizing ks with
  | nil => exact h
  | cons e es ih =>
    rw [List.foldl_cons]
    refine ih _ ?_
    cases hm : matchNutrient e.1 with
    | none =>
      rw [keysStep_none ks e hm]
      exact h
    | some k =>
      rw [keysStep_some ks e k hm]
      split_ifs
      · exact h
      · refine List.append_subset.mpr ⟨h, ?_⟩
        intro x hx
        rcases List.mem_singleton.mp hx with rfl
        exact matchNutrient_mem_canonical e.1 x hm

theorem processItem_keys_subset (db : String → List NutrientRecord)
    (t : Totals) (it : String × ℚ) (h : keysOf t ⊆ canonicalNames) :
    keysOf (processItem db t it) ⊆ canonicalNames := by
  simp only [processItem]
  split_ifs
  · exact h
  · rw [keysOf_foldl_entries]
    exact keysFold_subset_canonical _ _ h

theorem agg_keys_subset (db : String → List NutrientRecord) :
    ∀ (items : List (String × ℚ)) (t : Totals),
      keysOf t ⊆ canonicalNames →
      keysOf (items.foldl (processItem db) t) ⊆ canonicalNames := by
  intro items
  induction items with
  | nil => exact fun _ h => h
  | cons it items ih =>
    intro t h
    rw [List.foldl_cons]
    exact ih _ (processItem_keys_subset db t it h)

theorem contribSum_nonneg (es : List NutrientRecord) (k : String)
    (h : ∀ e ∈ es, 0 ≤ e.2.1) : 0 ≤ contribSum es k := by
  induction es with
  | nil => exact le_refl 0
  | cons e es ih =>
    simp only [contribSum]
    have h1 : (0:ℚ) ≤ if matchNutrient e.1 = some k then entryAmount e else 0 := by
      split_ifs
      · exact convert_to_mg_nonneg _ _ (h e (List.mem_cons_self e es))
      · exact le_refl 0
    have h2 := ih fun e0 he0 => h e0 (List.mem_cons_of_mem e he0)
    linarith

theorem processItem_value_mono (db : String → List NutrientRecord)
    (t : Totals) (it : String × ℚ) (k : String)
    (hdb : ∀ f e, e ∈ db f → 0 ≤ e.2.1) :
    dictGet t k ≤ dictGet (processItem db t it) k := by
  simp only [processItem]
  split_ifs with hg
  · exact le_refl _
  · rw [dictGet_foldl_entries]
    have hq : 0 < it.2 := not_le.mp (not_or.mp hg).2
    have hS := contribSum_nonneg (db (pyStrip it.1)) k fun e he => hdb _ e he
    have hm : 0 ≤ (it.2 / 100) * contribSum (db (pyStrip it.1)) k :=
      mul_nonneg (by positivity) hS
    linarith

theorem agg_value_mono (db : String → List NutrientRecord) (k : String)
    (hdb : ∀ f e, e ∈ db f → 0 ≤ e.2.1) :
    ∀ (l : List (String × ℚ)) (t : Totals),
      dictGet t k ≤ dictGet (l.foldl (processItem db) t) k := by
  intro l
  induction l with
  | nil => exact fun _ => le_refl _
  | cons it l ih =>
    intro t
    rw [List.foldl_cons]
    exact le_trans (processItem_value_mono db t it k hdb) (ih _)

/-- C6: throughout aggregation the totals dict only ever holds the five
canonical nutrient names as keys, and — provided every looked-up per-100g
value is non-negative — each key's value only grows as further items are
folded in. -/
theorem totals_keys_canonical_and_values_monotone :
    ∀ (db : String → List NutrientRecord)
      (items more : List (String × ℚ)) (k : String),
      keysOf (aggregate_totals db (items ++ more)) ⊆ canonicalNames ∧
      ((∀ f e, e ∈ db f → 0 ≤ e.2.1) →
        dictGet (aggregate_totals db items) k ≤
          dictGet (aggregate_totals db (items ++ more)) k) := by
  intro db items more k
  constructor
  · exact agg_keys_subset db (items ++ more) [] (List.nil_subset _)
  · intro hdb
    unfold aggregate_totals
    rw [List.foldl_append]
    exact agg_value_mono db k hdb more _

/-- Witness for C6 at a concrete input: folding one more item in never
lowers an accumulated value. -/
theorem totals_keys_canonical_and_values_monotone_witness :
    keysOf (aggregate_totals sampleDb
      ([("banana", 150)] ++ [("apple", 100)])) ⊆ canonicalNames ∧
    dictGet (aggregate_totals sampleDb [("banana", 150)]) "Protein" ≤
      dictGet (aggregate_totals sampleDb
        ([("banana", 150)] ++ [("apple", 100)])) "Protein" :=
  ⟨(totals_keys_canonical_and_values_monotone sampleDb
      [("banana", 150)] [("apple", 100)] "Protein").1,
   (totals_keys_canonical_and_values_monotone sampleDb
      [("banana", 150)] [("apple", 100)] "Protein").2
    (by
      intro f e he
      simp only [sampleDb, List.mem_cons, List.not_mem_nil, or_false] at he
      rcases he with rfl | rfl <;> norm_num)⟩

/-! ## Nutrient Matcher theorems -/

/-- C7: the matcher lower-cases the free-text name and tests the fixed
substring table in its iteration order, the first matching canonical name
winning; names matching nothing resolve to `none` and contribute nothing to
the totals.  Both spec examples resolve to `Vitamin C` and `"Potassium"`
resolves to no match. -/
theorem nutrient_matcher_first_substring_wins :
    (∀ s : String, matchNutrient s =
      (if strContains (strLower s) "protein" then some "Protein"
       else if strContains (strLower s) "vitamin c" ||
           strContains (strLower s) "ascorbic acid" then some "Vitamin C"
       else if strContains (strLower s) "iron" then some "Iron"
       else if strContains (strLower s) "calcium" then some "Calcium"
       else if strContains (strLower s) "fiber" ||
           strContains (strLower s) "dietary fiber" then some "Fiber"
       else none)) ∧
    matchNutrient "Vitamin C, total ascorbic acid" = some "Vitamin C" ∧
    matchNutrient "ascorbic acid content" = some "Vitamin C" ∧
    matchNutrient "Iron-rich protein" = some "Protein" ∧
    matchNutrient "Potassium" = none ∧
    (∀ (t : Totals) (value : ℚ) (unit : String) (qty_g : ℚ),
      foldNutrient qty_g t ("Potassium", value, unit) = t) := by
  refine ⟨?_, by decide, by decide, by decide, by decide, ?_⟩
  · intro s
    cases h1 : strContains (strLower s) "protein" <;>
    cases h2 : strContains (strLower s) "vitamin c" <;>
    cases h3 : strContains (strLower s) "ascorbic acid" <;>
    cases h4 : strContains (strLower s) "iron" <;>
    cases h5 : strContains (strLower s) "calcium" <;>
    cases h6 : strContains (strLower s) "fiber" <;>
    cases h7 : strContains (strLower s) "dietary fiber" <;>
      simp [matchNutrient, NUTRIENT_KEY_MAP, List.find?, h1, h2, h3, h4, h5, h6, h7]
  · intro t value unit qty_g
    simp [foldNutrient, show matchNutrient "Potassium" = none from by decide]

/-! ## Food Recommender theorems -/

theorem foldl_append_blocks {α β : Type} (f : α → List β) :
    ∀ (l : List α) (acc : List β),
      l.foldl (fun a d => a ++ f d) acc = acc ++ (l.map f).flatten := by
  intro l
  induction l with
  | nil => intro acc; simp
  | cons d l ih =>
    intro acc
    simp only [List.foldl_cons, List.map_cons, List.flatten_cons, ih]
    rw [List.append_assoc]

theorem foldl_append_singletons {α β : Type} (g : α → β) :
    ∀ (l : List α) (acc : List β),
      l.foldl (fun a x => a ++ [g x]) acc = acc ++ l.map g := by
  intro l
  induction l with
  | nil => intro acc; simp
  | cons d l ih =>
    intro acc
    simp only [List.foldl_cons, List.map_cons, ih]
    rw [List.append_assoc]
    rfl

theorem recommend_foods_eq (defic : List (String × ℚ × String))
    (weather : Option Weather) :
    recommend_foods defic weather =
      ((defic.map fun d => (baseGet d.1).map fun p => RecEntry.pair p.1 p.2).flatten ++
        (if weatherHot weather then ["Cucumber", "Yogurt"]
         else ["Soup", "Eggs"]).map fun f => RecEntry.triple f "-" "-").take 10 := by
  simp only [recommend_foods]
  rw [foldl_append_blocks (fun d => (baseGet d.1).map fun p => RecEntry.pair p.1 p.2)
      defic [],
    foldl_append_singletons (fun f => RecEntry.triple f "-" "-")]
  simp

/-- C8: the recommender appends the static table foods of every deficient
nutrient (in the deficiency dict's order, each nutrient's foods in table
order), then exactly the two weather-conditioned foods (Cucumber and Yogurt
when the temperature exceeds 30 °C, else Soup and Eggs, and a missing
snapshot counts as not hot), truncates the combined list to at most 10
entries with no deduplication, and with all five nutrients deficient the
output length is exactly 10. -/
theorem recommender_structure_and_cap :
    (∀ (defic : List (String × ℚ × String)) (weather : Option Weather),
      recommend_foods defic weather =
        ((defic.map fun d => (baseGet d.1).map fun p =>
            RecEntry.pair p.1 p.2).flatten ++
          (if weatherHot weather then ["Cucumber", "Yogurt"]
           else ["Soup", "Eggs"]).map fun f => RecEntry.triple f "-" "-").take 10 ∧
      (recommend_foods defic weather).length ≤ 10) ∧
    (∀ w : Weather, (weatherHot (some w) = true ↔ w.temp > 30) ∧
      weatherHot none = false) ∧
    (∀ (gender : String) (height_cm weight_kg : ℚ) (weather : Option Weather),
      (recommend_foods (calculate_deficiency [] gender height_cm weight_kg)
        weather).length = 10) := by
  refine ⟨fun defic weather => ⟨recommend_foods_eq defic weather, ?_⟩,
    fun w => ⟨by simp [weatherHot], rfl⟩, ?_⟩
  · rw [recommend_foods_eq]
    exact List.length_take_le _ _
  · intro gender h w weather
    rw [calc_deficiency_empty gender h w, recommend_foods_eq]
    have hP : baseGet "Protein" =
        [("Chicken", "27 g"), ("Eggs", "13 g"), ("Paneer", "18 g")] := by decide
    have hF : baseGet "Fiber" =
        [("Oats", "10 g"), ("Apple", "4.5 g"), ("Carrots", "3 g")] := by decide
    have hV : baseGet "Vitamin C" =
        [("Orange", "53 mg"), ("Guava", "200 mg"), ("Kiwi", "90 mg")] := by decide
    have hI : baseGet "Iron" =
        [("Spinach", "2.7 mg"), ("Liver", "6.5 mg"), ("Beans", "3.7 mg")] := by decide
    have hC : baseGet "Calcium" =
        [("Milk", "120 mg"), ("Curd", "80 mg"), ("Almonds", "75 mg")] := by decide
    simp only [List.map_cons, List.map_nil, hP, hF, hV, hI, hC]
    split_ifs <;> simp [List.length_take]

/-! ## Response Parser theorems -/

set_option maxRecDepth 100000 in
/-- C9: the Response Parser always returns a result: when the greedy brace
span (first opening to last closing brace) parses as JSON the three fields
are extracted with empty defaults for missing keys, and on parse failure or
absence of a span the whole trimmed text becomes the summary with empty
meal_plan and advice.  Both spec examples evaluate as stated. -/
theorem response_parser_total_with_fallback :
    (∀ text : String,
      consultFields text =
        (match (braceSpan text).bind jsonParse with
         | some j =>
           (objGetD j "summary" (Json.str ""),
            objGetD j "meal_plan" (Json.arr []),
            objGetD j "advice" (Json.str ""))
         | none =>
           (Json.str (pyStrip text), Json.arr [], Json.str ""))) ∧
    consultFields
        "Here you go: \x7b\"summary\":\"ok\",\"meal_plan\":[],\"advice\":\"drink water\"\x7d thanks" =
      (Json.str "ok", Json.arr [], Json.str "drink water") ∧
    consultFields "no braces here" =
      (Json.str "no braces here", Json.arr [], Json.str "") := by
  refine ⟨?_, ?_, ?_⟩
  · intro text
    cases hb : braceSpan text with
    | none =>
      simp only [consultFields, extract_json_from_text, hb]
      rfl
    | some span =>
      cases hp : jsonParse span with
      | none =>
        simp only [consultFields, extract_json_from_text, hb, hp, Option.some_bind]
        rfl
      | some j =>
        simp only [consultFields, extract_json_from_text, hb, hp, Option.some_bind]
  · rfl
  · rfl

end NutriSpec
